import Mathlib

/-!
Shallow embedding of the target-size-seeking compression searches of the
File-compressor repository (backend/utils/image_compressor.py,
pdf_compressor.py, video_compressor.py), together with theorems checking
the specification's claims about them.

The external encoders (PIL, Ghostscript, ffmpeg) are modelled as size
functions supplied as parameters: an encoder maps a parameter vector
(quality, tier, bitrate/dimensions) to the byte size of the artifact it
would produce.  Python floats are modelled as exact rationals (ℚ);
Python's `//` is Int floor division, matching Lean's `/` on ℤ; Python's
`int()` on a non-negative float is `Rat.floor`.
-/

namespace FileCompressor

/-! ### Image compressor: `binary_search_quality` (image_compressor.py, lines 71-151) -/

/-- One encoder probe of the image quality search: the quality value
probed and the resulting encoded size in bytes. -/
structure Probe where
  q : ℤ
  size : ℕ
deriving DecidableEq

/-- The main binary-search loop of `binary_search_quality`
(image_compressor.py lines 119-139).  `s` is the encoder size function at
the fixed dimensions of this search, `fuel` is `max_iterations -
iterations` (initially 20), `low`/`high` the current interval, `best` the
current `(best_quality, best_size)` pair.  Returns the final best pair
together with the list of probes taken by the loop, in order.  `(low +
high) / 2` on ℤ is floor division, exactly Python's `//`. -/
def bsqLoop (s : ℤ → ℕ) (target : ℕ) (tolB : ℚ) :
    ℕ → ℤ → ℤ → ℤ × ℕ → (ℤ × ℕ) × List Probe
  | 0, _, _, best => (best, [])
  | fuel + 1, low, high, best =>
    if low ≤ high then
      let mid := (low + high) / 2
      let sz := s mid
      if sz ≤ target then
        if (target : ℚ) - (sz : ℚ) ≤ tolB then ((mid, sz), [⟨mid, sz⟩])
        else
          let r := bsqLoop s target tolB fuel (mid + 1) high (mid, sz)
          (r.1, ⟨mid, sz⟩ :: r.2)
      else
        let r := bsqLoop s target tolB fuel low (mid - 1) best
        (r.1, ⟨mid, sz⟩ :: r.2)
    else (best, [])

/-- The quality values probed by the refinement pass
(image_compressor.py line 144): Python's
`range(best_quality + 1, min(best_quality + 5, max_quality + 1))`. -/
def refineList (bq maxQ : ℤ) : List ℤ :=
  (List.range (min 4 (maxQ - bq).toNat)).map (fun i => bq + 1 + Int.ofNat i)

/-- One step of the refinement pass (image_compressor.py lines 145-149):
the best pair is replaced only when the probe is compliant and strictly
larger than the current best size. -/
def refineStep (s : ℤ → ℕ) (target : ℕ) (b : ℤ × ℕ) (q : ℤ) : ℤ × ℕ :=
  let sz := s q
  if sz ≤ target ∧ b.2 < sz then (q, sz) else b

/-- Result of `binary_search_quality`: the returned
`(best_quality, best_size)` pair (`none` models Python's
`(None, None, None)`), and the probes taken, split by phase: the boundary
probes at `max_quality` / `min_quality`, the binary-search loop probes,
and the refinement probes. -/
structure BSQOut where
  best : Option (ℤ × ℕ)
  boundary : List Probe
  loop : List Probe
  refine : List Probe
deriving DecidableEq

/-- All probes of one `binary_search_quality` call, in order. -/
def BSQOut.probes (o : BSQOut) : List Probe :=
  o.boundary ++ o.loop ++ o.refine

/-- Embedding of `binary_search_quality` (image_compressor.py lines 71-151).
`s q` is the size produced by `compress_with_settings` at quality `q` and
the (fixed) dimensions of this call.  `tolPct` is `tolerance_pct`
(default 1.0); `tolerance_bytes = target_size * tolerance_pct / 100`. -/
def bsq (s : ℤ → ℕ) (target : ℕ) (minQ maxQ : ℤ) (tolPct : ℚ) : BSQOut :=
  let tolB : ℚ := (target : ℚ) * tolPct / 100
  let sMax := s maxQ
  if sMax ≤ target then ⟨some (maxQ, sMax), [⟨maxQ, sMax⟩], [], []⟩
  else
    let sMin := s minQ
    if target < sMin then ⟨none, [⟨maxQ, sMax⟩, ⟨minQ, sMin⟩], [], []⟩
    else if (target : ℚ) - (sMin : ℚ) ≤ tolB then
      ⟨some (minQ, sMin), [⟨maxQ, sMax⟩, ⟨minQ, sMin⟩], [], []⟩
    else
      let r := bsqLoop s target tolB 20 minQ maxQ (minQ, sMin)
      let rl := refineList r.1.1 maxQ
      let b := rl.foldl (refineStep s target) r.1
      ⟨some b, [⟨maxQ, sMax⟩, ⟨minQ, sMin⟩], r.2, rl.map (fun q => ⟨q, s q⟩)⟩

/-! ### Image compressor: `compress_image` (image_compressor.py, lines 153-305) -/

/-- Embedding of `calculate_new_dimensions` (image_compressor.py lines 153-161):
`max(1, int(original * scale))`; `int()` truncates, which on the
non-negative products here is the floor. -/
def calculate_new_dimensions (w h : ℕ) (sc : ℚ) : ℕ × ℕ :=
  (max 1 (⌊(w : ℚ) * sc⌋).toNat, max 1 (⌊(h : ℚ) * sc⌋).toNat)

/-- The dimension-ladder scale factors (image_compressor.py line 222). -/
def scaleFactors : List ℚ :=
  [mkRat 9 10, mkRat 8 10, mkRat 7 10, mkRat 6 10,
   mkRat 5 10, mkRat 4 10, mkRat 3 10, mkRat 2 10]

/-- Python's `str.lower()` on the ASCII format names used here,
character by character (Lean's own `String.toLower` is not
kernel-reducible, so we map over the character list directly). -/
def strLower (s : String) : String := ⟨s.data.map Char.toLower⟩

/-- Python's `str.upper()`, likewise. -/
def strUpper (s : String) : String := ⟨s.data.map Char.toUpper⟩

/-- The metadata of a decoded source image as `compress_image` sees it:
byte size, pixel dimensions, `image.format` and `image.mode`. -/
structure ImageInput where
  originalSize : ℕ
  width : ℕ
  height : ℕ
  format : String
  mode : String

/-- The `format_for_compression` choice (image_compressor.py lines
199-203): a PNG in RGBA mode is re-encoded as WebP when the target is
below half the original size. -/
def imageFmt (inp : ImageInput) (target : ℕ) : String :=
  if strUpper inp.format = "PNG" ∧ inp.mode = "RGBA" ∧
      (target : ℚ) < (inp.originalSize : ℚ) * (mkRat 1 2)
    then "WEBP" else inp.format

/-- The dimension-ladder loop of `compress_image` (image_compressor.py
lines 224-262): for each scale factor, first a single probe at quality
95, then a full quality search at the scaled dimensions; the first
success wins.  `e` is the encoder size function at the chosen format.
Returns `(size, quality, dimensions)` of the successful probe. -/
def ladderSearch (e : ℤ → Option (ℕ × ℕ) → ℕ) (target : ℕ) (w h : ℕ) :
    List ℚ → Option (ℕ × ℤ × (ℕ × ℕ))
  | [] => none
  | sc :: rest =>
    let d := calculate_new_dimensions w h sc
    let s95 := e 95 (some d)
    if s95 ≤ target then some (s95, 95, d)
    else
      match (bsq (fun q => e q (some d)) target 1 95 1).best with
      | some (q, sz) => some (sz, q, d)
      | none => ladderSearch e target w h rest

/-- The outcome of `compress_image`: whether the original file was
returned unchanged, the extension of the returned filename, and the
fields of the returned `compression_info` dict that the claims are
about.  `success` is an `Option` because the early-return dict
(image_compressor.py lines 190-197) carries no `success` key at all,
while the compression-path dict (line 302) sets it. -/
structure ImageOutcome where
  returnedOriginal : Bool
  ext : String
  size : ℕ
  quality : ℤ
  finalDims : ℕ × ℕ
  resized : Bool
  reductionPercent : ℚ
  success : Option Bool
deriving DecidableEq

/-- Embedding of `compress_image` (image_compressor.py lines 163-305) for an input
that decodes successfully.  `enc fmt q d` is the size produced by
`compress_with_settings image fmt q d` (with `d = none` meaning no
resize).  Total: every decodable input yields an outcome. -/
def compressImage (enc : String → ℤ → Option (ℕ × ℕ) → ℕ)
    (inp : ImageInput) (maxKB : ℕ) : ImageOutcome :=
  let target := maxKB * 1024
  if inp.originalSize ≤ target then
    { returnedOriginal := true, ext := strLower inp.format,
      size := inp.originalSize, quality := 100,
      finalDims := (inp.width, inp.height), resized := false,
      reductionPercent := 0, success := none }
  else
    let fmt := imageFmt inp target
    let e := enc fmt
    match (bsq (fun q => e q none) target 1 95 1).best with
    | some (q, sz) =>
      { returnedOriginal := false, ext := strLower fmt, size := sz,
        quality := q, finalDims := (inp.width, inp.height),
        resized := false,
        reductionPercent := (1 - (sz : ℚ) / (inp.originalSize : ℚ)) * 100,
        success := some (decide (sz ≤ target)) }
    | none =>
      match ladderSearch e target inp.width inp.height scaleFactors with
      | some (sz, q, d) =>
        { returnedOriginal := false, ext := strLower fmt, size := sz,
          quality := q, finalDims := d, resized := true,
          reductionPercent := (1 - (sz : ℚ) / (inp.originalSize : ℚ)) * 100,
          success := some (decide (sz ≤ target)) }
      | none =>
        let d := calculate_new_dimensions inp.width inp.height (mkRat 1 10)
        let sz := e 1 (some d)
        { returnedOriginal := false, ext := strLower fmt, size := sz,
          quality := 1, finalDims := d, resized := true,
          reductionPercent := (1 - (sz : ℚ) / (inp.originalSize : ℚ)) * 100,
          success := some (decide (sz ≤ target)) }

/-! ### PDF compressor: `AdaptivePDFCompressor` (pdf_compressor.py) -/

/-- One entry of `CUSTOM_QUALITY_LEVELS` (pdf_compressor.py lines 48-61):
a quality factor, the Ghostscript preset name, and the DPI. -/
structure PdfLevel where
  qf : ℚ
  pres : String
  dpi : ℕ
deriving DecidableEq

/-- The table `CUSTOM_QUALITY_LEVELS` (pdf_compressor.py lines 48-61); the Python
float literals 0.0, 0.1, ..., 1.0 are the exact rationals k/10. -/
def CUSTOM_QUALITY_LEVELS : List PdfLevel :=
  [⟨0, "/screen", 36⟩, ⟨mkRat 1 10, "/screen", 50⟩, ⟨mkRat 2 10, "/screen", 72⟩,
   ⟨mkRat 3 10, "/ebook", 100⟩, ⟨mkRat 4 10, "/ebook", 150⟩, ⟨mkRat 5 10, "/ebook", 200⟩,
   ⟨mkRat 6 10, "/printer", 225⟩, ⟨mkRat 7 10, "/printer", 250⟩, ⟨mkRat 8 10, "/printer", 300⟩,
   ⟨mkRat 9 10, "/prepress", 300⟩, ⟨1, "/prepress", 400⟩]

/-- Embedding of `get_settings_for_quality_factor` (pdf_compressor.py lines 127-134):
the first level whose `quality_factor` is at least the requested factor,
defaulting to the last level (`CUSTOM_QUALITY_LEVELS[-1]`). -/
def get_settings_for_quality_factor (f : ℚ) : PdfLevel :=
  (CUSTOM_QUALITY_LEVELS.find? (fun l => decide (f ≤ l.qf))).getD
    (CUSTOM_QUALITY_LEVELS.getLastD ⟨0, "", 0⟩)

/-- The binary-search loop of `find_optimal_compression`
(pdf_compressor.py lines 200-229).  `penc` is the Ghostscript encode:
`none` models a raised exception (caught at line 226, treated as "search
lower").  Sizes are in MB, modelled as exact rationals.  `best` is
`best_size_mb`; the loop width threshold is 0.05 and the iteration cap
(the initial fuel) is 8.  Returns the final best size and the sizes of
the successful probes, in order. -/
def pdfLoop (penc : PdfLevel → Option ℚ) (target : ℚ) :
    ℕ → ℚ → ℚ → ℚ → ℚ × List ℚ
  | 0, _, _, best => (best, [])
  | fuel + 1, low, high, best =>
    if mkRat 5 100 < high - low then
      let mid := (low + high) / 2
      match penc (get_settings_for_quality_factor mid) with
      | some sz =>
        if sz ≤ target then
          let best2 := if best < sz then sz else best
          let r := pdfLoop penc target fuel mid high best2
          (r.1, sz :: r.2)
        else
          let r := pdfLoop penc target fuel low mid best
          (r.1, sz :: r.2)
      | none => pdfLoop penc target fuel low mid best
    else (best, [])

/-- The outcome of `find_optimal_compression`: whether the input file was
returned unchanged, the size (MB) of the returned file, and the sizes of
the successful encoder probes taken, in order. -/
structure PdfOutcome where
  returnedOriginal : Bool
  size : ℚ
  probes : List ℚ
deriving DecidableEq

/-- Embedding of `find_optimal_compression` (pdf_compressor.py lines 136-246).
Returns `none` when an uncaught encoder failure propagates (the lowest-
and highest-quality probes are outside the loop's try/except). -/
def find_optimal_compression (penc : PdfLevel → Option ℚ)
    (inputSize target : ℚ) : Option PdfOutcome :=
  if inputSize ≤ target then some ⟨true, inputSize, []⟩
  else
    match penc (get_settings_for_quality_factor 0) with
    | none => none
    | some lowSz =>
      if target < lowSz then some ⟨false, lowSz, [lowSz]⟩
      else
        match penc (get_settings_for_quality_factor 1) with
        | none => none
        | some hiSz =>
          if hiSz ≤ target then some ⟨false, hiSz, [lowSz, hiSz]⟩
          else
            let r := pdfLoop penc target 8 0 1 lowSz
            some ⟨false, r.1, lowSz :: hiSz :: r.2⟩

/-- The `reduction_percent` computed by `compress_to_target_size`
(pdf_compressor.py line 303). -/
def pdf_reduction_percent (orig final : ℚ) : ℚ :=
  (orig - final) / orig * 100

/-! ### Video compressor: `compress_video_to_target` (video_compressor.py) -/

/-- One ffmpeg probe: the video bitrate used and the dimensions passed
(`none` when no `scale` filter is applied). -/
structure VProbe where
  bitrate : ℚ
  dims : Option (ℕ × ℕ)
deriving DecidableEq

/-- The bitrate clamp (video_compressor.py lines 152-154 and 186):
`max(100000, min(b, 4000000))`. -/
def clampBitrate (b : ℚ) : ℚ := max 100000 (min b 4000000)

/-- The band lower bound in bytes: `(max_size_mb - BUFFER_MAX) * 1024 *
1024` (video_compressor.py lines 138, 143). -/
def vMinBytes (m : ℚ) : ℚ := (m - 2) * 1048576

/-- The band upper bound in bytes: `(max_size_mb - BUFFER_MIN) * 1024 *
1024` (video_compressor.py lines 139, 144). -/
def vMaxBytes (m : ℚ) : ℚ := (m - 1) * 1048576

/-- The initial target in bytes: `(max_size_mb - BUFFER_AVG) * 1024 *
1024` (video_compressor.py lines 137, 142). -/
def vTargetBytes (m : ℚ) : ℚ := (m - mkRat 3 2) * 1048576

/-- The initial clamped video bitrate estimate (video_compressor.py
lines 148-154): `((target_bytes * 8) / duration) - audio_bitrate`,
clamped. -/
def initialBitrate (duration m : ℚ) : ℚ :=
  clampBitrate (vTargetBytes m * 8 / duration - 128000)

/-- The one-shot downscaled dimensions (video_compressor.py lines
167-169): `int(width * 0.8), int(height * 0.8)`. -/
def downDims (w h : ℕ) : ℕ × ℕ :=
  ((⌊(w : ℚ) * mkRat 8 10⌋).toNat, (⌊(h : ℚ) * mkRat 8 10⌋).toNat)

/-- The bitrate-adjustment loop (video_compressor.py lines 176-191).
`venc` is the ffmpeg encode size function; `w`, `h` are the ORIGINAL
video dimensions, which is what the loop passes to
`run_ffmpeg_compression`.  Fuel is `max_attempts - (attempt - 1)`
(initially 4).  Returns (final bitrate, final size, probes taken,
iterations performed). -/
def vLoop (venc : ℚ → Option (ℕ × ℕ) → ℕ) (minB maxB : ℚ) (w h : ℕ) :
    ℕ → ℚ → ℕ → ℚ × ℕ × List VProbe × ℕ
  | 0, vb, size => (vb, size, [], 0)
  | fuel + 1, vb, size =>
    if minB ≤ (size : ℚ) ∧ (size : ℚ) ≤ maxB then (vb, size, [], 0)
    else
      let vb2 := clampBitrate
        (if maxB < (size : ℚ) then vb * mkRat 9 10 else vb * mkRat 11 10)
      let sz2 := venc vb2 (some (w, h))
      let r := vLoop venc minB maxB w h fuel vb2 sz2
      (r.1, r.2.1, ⟨vb2, some (w, h)⟩ :: r.2.2.1, r.2.2.2 + 1)

/-- The outcome of `compress_video_to_target`: every ffmpeg probe taken
in order, the size and iteration count at exit from the adjustment loop,
and the final size and bitrate after the safety pass. -/
structure VideoOutcome where
  probes : List VProbe
  loopSize : ℕ
  loopIters : ℕ
  finalSize : ℕ
  finalBitrate : ℚ
deriving DecidableEq

/-- Embedding of `compress_video_to_target` (video_compressor.py lines 115-204) for an
input whose metadata probe succeeds with the given duration and
dimensions, and whose ffmpeg invocations all succeed with sizes given by
`venc`.  `m` is `max_size_mb`. -/
def compress_video_to_target (venc : ℚ → Option (ℕ × ℕ) → ℕ)
    (duration : ℚ) (w h : ℕ) (m : ℚ) : VideoOutcome :=
  let minB := vMinBytes m
  let maxB := vMaxBytes m
  let vb0 := initialBitrate duration m
  let s0 := venc vb0 none
  let pre : List VProbe × ℕ :=
    if maxB < (s0 : ℚ) then
      ([⟨vb0, none⟩, ⟨vb0, some (downDims w h)⟩],
       venc vb0 (some (downDims w h)))
    else ([⟨vb0, none⟩], s0)
  let r := vLoop venc minB maxB w h 4 vb0 pre.2
  let fin : ℚ × ℕ × List VProbe :=
    if maxB < (r.2.1 : ℚ) then
      -- line 196: `max_size_mb` was reassigned to `m - BUFFER_MIN` at line
      -- 139, so `target_size_mb = max_size_mb - BUFFER_MAX = m - 1 - 2`.
      let vb2 := clampBitrate ((m - 1 - 2) * 1048576 * 8 / duration - 128000)
      (vb2, venc vb2 (some (w, h)), [⟨vb2, some (w, h)⟩])
    else (r.1, r.2.1, [])
  ⟨pre.1 ++ r.2.2.1 ++ fin.2.2, r.2.1, r.2.2.2, fin.2.1, fin.1⟩

/-! ### Lemmas about the image quality search -/

/-- Every probe of the binary-search loop lies in the interval the loop
was called with. -/
theorem bsqLoop_mem_bounds (s : ℤ → ℕ) (target : ℕ) (tolB : ℚ) :
    ∀ (fuel : ℕ) (low high : ℤ) (best : ℤ × ℕ) (p : Probe),
      p ∈ (bsqLoop s target tolB fuel low high best).2 →
      low ≤ p.q ∧ p.q ≤ high := by
  intro fuel
  induction fuel with
  | zero =>
    intro low high best p hp
    simp [bsqLoop] at hp
  | succ n ih =>
    intro low high best p hp
    simp only [bsqLoop] at hp
    split_ifs at hp with h1 h2 h3
    · simp only [List.mem_singleton] at hp
      subst hp
      dsimp only
      omega
    · simp only [List.mem_cons] at hp
      rcases hp with rfl | hmem
      · dsimp only
        omega
      · have hb := ih ((low + high) / 2 + 1) high ((low + high) / 2, s ((low + high) / 2)) p hmem
        omega
    · simp only [List.mem_cons] at hp
      rcases hp with rfl | hmem
      · dsimp only
        omega
      · have hb := ih low ((low + high) / 2 - 1) best p hmem
        omega
    · simp at hp

/-- The binary-search loop never probes the same quality value twice. -/
theorem bsqLoop_nodup (s : ℤ → ℕ) (target : ℕ) (tolB : ℚ) :
    ∀ (fuel : ℕ) (low high : ℤ) (best : ℤ × ℕ),
      (((bsqLoop s target tolB fuel low high best).2).map Probe.q).Nodup := by
  intro fuel
  induction fuel with
  | zero =>
    intro low high best
    simp [bsqLoop]
  | succ n ih =>
    intro low high best
    simp only [bsqLoop]
    split_ifs with h1 h2 h3
    · simp
    · simp only [List.map_cons, List.nodup_cons]
      refine ⟨?_, ih _ _ _⟩
      intro hmem
      obtain ⟨p, hp, hq⟩ := List.mem_map.mp hmem
      have hb := bsqLoop_mem_bounds s target tolB n _ _ _ p hp
      omega
    · simp only [List.map_cons, List.nodup_cons]
      refine ⟨?_, ih _ _ _⟩
      intro hmem
      obtain ⟨p, hp, hq⟩ := List.mem_map.mp hmem
      have hb := bsqLoop_mem_bounds s target tolB n _ _ _ p hp
      omega
    · simp

/-- The binary-search loop takes at most `fuel` probes. -/
theorem bsqLoop_length (s : ℤ → ℕ) (target : ℕ) (tolB : ℚ) :
    ∀ (fuel : ℕ) (low high : ℤ) (best : ℤ × ℕ),
      ((bsqLoop s target tolB fuel low high best).2).length ≤ fuel := by
  intro fuel
  induction fuel with
  | zero =>
    intro low high best
    simp [bsqLoop]
  | succ n ih =>
    intro low high best
    simp only [bsqLoop]
    split_ifs with h1 h2 h3
    · simp
    · simpa using Nat.succ_le_succ (ih _ _ _)
    · simpa using Nat.succ_le_succ (ih _ _ _)
    · simp

/-- The refinement pass replaces the best pair only by a compliant probe
of strictly larger size; otherwise it leaves it unchanged. -/
theorem refineFold_spec (s : ℤ → ℕ) (target : ℕ) :
    ∀ (l : List ℤ) (b : ℤ × ℕ),
      b.2 ≤ (l.foldl (refineStep s target) b).2 ∧
      (l.foldl (refineStep s target) b = b ∨
        ((l.foldl (refineStep s target) b).2 ≤ target ∧
         b.2 < (l.foldl (refineStep s target) b).2 ∧
         ∃ q ∈ l, (q, s q) = l.foldl (refineStep s target) b)) := by
  intro l
  induction l with
  | nil =>
    intro b
    simp
  | cons x xs ih =>
    intro b
    rw [List.foldl_cons]
    rcases ih (refineStep s target b x) with ⟨h1, h2⟩
    by_cases hx : s x ≤ target ∧ b.2 < s x
    · have hstep : refineStep s target b x = (x, s x) := by
        simp [refineStep, hx.1, hx.2]
      rw [hstep] at h1 h2 ⊢
      refine ⟨le_trans (le_of_lt hx.2) h1, Or.inr ?_⟩
      rcases h2 with h2 | ⟨ha, hb, q, hq, hfold⟩
      · rw [h2]
        exact ⟨hx.1, hx.2, x, List.mem_cons_self x xs, rfl⟩
      · exact ⟨ha, lt_trans hx.2 hb, q, List.mem_cons_of_mem x hq, hfold⟩
    · have hstep : refineStep s target b x = b := by
        by_cases hc : s x ≤ target
        · have : ¬ b.2 < s x := fun hlt => hx ⟨hc, hlt⟩
          simp [refineStep, this]
        · simp [refineStep, hc]
      rw [hstep] at h1 h2 ⊢
      refine ⟨h1, ?_⟩
      rcases h2 with h2 | ⟨ha, hb, q, hq, hfold⟩
      · exact Or.inl h2
      · exact Or.inr ⟨ha, hb, q, List.mem_cons_of_mem x hq, hfold⟩

/-! ### Lemmas about the PDF tier search -/

/-- Invariant of the PDF binary-search loop: starting from a compliant
best size, the final best size is compliant, only grows, is either the
starting best or one of the loop's own probes, and dominates every
compliant probe the loop took. -/
theorem pdfLoop_spec (penc : PdfLevel → Option ℚ) (target : ℚ) :
    ∀ (fuel : ℕ) (low high best : ℚ), best ≤ target →
      best ≤ (pdfLoop penc target fuel low high best).1 ∧
      (pdfLoop penc target fuel low high best).1 ≤ target ∧
      ((pdfLoop penc target fuel low high best).1 = best ∨
        (pdfLoop penc target fuel low high best).1 ∈
          (pdfLoop penc target fuel low high best).2) ∧
      (∀ sz ∈ (pdfLoop penc target fuel low high best).2,
        sz ≤ target → sz ≤ (pdfLoop penc target fuel low high best).1) := by
  intro fuel
  induction fuel with
  | zero =>
    intro low high best hbt
    simp [pdfLoop, hbt]
  | succ n ih =>
    intro low high best hbt
    simp only [pdfLoop]
    split_ifs with h1
    · cases hpe : penc (get_settings_for_quality_factor ((low + high) / 2)) with
      | none =>
        simpa using ih low ((low + high) / 2) best hbt
      | some sz =>
        simp only
        split_ifs with h2 h3
        · -- compliant probe, strictly larger: best2 = sz
          obtain ⟨i1, i2, i3, i4⟩ := ih ((low + high) / 2) high sz h2
          refine ⟨le_trans (le_of_lt h3) i1, i2, ?_, ?_⟩
          · rcases i3 with i3 | i3
            · exact Or.inr (by rw [i3]; exact List.mem_cons_self _ _)
            · exact Or.inr (List.mem_cons_of_mem _ i3)
          · intro x hx hxle
            rcases List.mem_cons.mp hx with rfl | hx
            · exact i1
            · exact i4 x hx hxle
        · -- compliant probe, not larger: best2 = best
          obtain ⟨i1, i2, i3, i4⟩ := ih ((low + high) / 2) high best hbt
          refine ⟨i1, i2, ?_, ?_⟩
          · rcases i3 with i3 | i3
            · exact Or.inl i3
            · exact Or.inr (List.mem_cons_of_mem _ i3)
          · intro x hx hxle
            rcases List.mem_cons.mp hx with rfl | hx
            · exact le_trans (le_of_not_lt h3) i1
            · exact i4 x hx hxle
        · -- oversized probe: search lower
          obtain ⟨i1, i2, i3, i4⟩ := ih low ((low + high) / 2) best hbt
          refine ⟨i1, i2, ?_, ?_⟩
          · rcases i3 with i3 | i3
            · exact Or.inl i3
            · exact Or.inr (List.mem_cons_of_mem _ i3)
          · intro x hx hxle
            rcases List.mem_cons.mp hx with rfl | hx
            · exact absurd hxle h2
            · exact i4 x hx hxle
    · simp [hbt]

/-! ### Claim theorems -/

/-- C1: the claim that every search returns, among all probes taken, the
one with the largest size not exceeding the target fails on the image
quality binary search: its loop replaces the best unconditionally on
every compliant probe (image_compressor.py lines 126-130), so with a
size function that is not monotone in quality a later, smaller compliant
probe evicts a larger one.  Here the search returns size 70 although it
probed quality 48 with compliant size 80. -/
theorem claim_C1_counterexample :
    (bsq (fun q => if q ≤ 48 then 80 else if q ≤ 72 then 70 else 200)
        100 1 95 1).best = some (72, 70) ∧
    (⟨48, 80⟩ : Probe) ∈
      (bsq (fun q => if q ≤ 48 then 80 else if q ≤ 72 then 70 else 200)
        100 1 95 1).probes ∧
    (80 : ℕ) ≤ 100 ∧ (70 : ℕ) < 80 := by
  refine ⟨?_, ?_, by decide, by decide⟩ <;> with_unfolding_all decide

/-- C1 (amended): the PDF tier search does return, among all probes
taken, the largest size not exceeding the target (its best is updated
only by strictly larger compliant probes, pdf_compressor.py lines
215-222); and the image refinement pass (image_compressor.py lines
144-149) replaces the best only by a compliant probe of strictly larger
size.  The analogous statement for the image binary-search loop holds
only under monotonicity of size in quality. -/
theorem claim_C1 :
    (∀ (penc : PdfLevel → Option ℚ) (inputSize target lowSz hiSz : ℚ),
      target < inputSize →
      penc (get_settings_for_quality_factor 0) = some lowSz →
      lowSz ≤ target →
      penc (get_settings_for_quality_factor 1) = some hiSz →
      target < hiSz →
      ∃ o : PdfOutcome,
        find_optimal_compression penc inputSize target = some o ∧
        o.size ≤ target ∧ (o.size = lowSz ∨ o.size ∈ o.probes) ∧
        ∀ sz ∈ o.probes, sz ≤ target → sz ≤ o.size) ∧
    (∀ (s : ℤ → ℕ) (target : ℕ) (l : List ℤ) (b : ℤ × ℕ),
      l.foldl (refineStep s target) b = b ∨
        ((l.foldl (refineStep s target) b).2 ≤ target ∧
         b.2 < (l.foldl (refineStep s target) b).2)) := by
  constructor
  · intro penc inputSize target lowSz hiSz hlt hlow hlowle hhi hhigt
    simp only [find_optimal_compression]
    rw [if_neg (not_le.mpr hlt), hlow]
    simp only
    rw [if_neg (not_lt.mpr hlowle), hhi]
    simp only
    rw [if_neg (not_le.mpr hhigt)]
    obtain ⟨i1, i2, i3, i4⟩ := pdfLoop_spec penc target 8 0 1 lowSz hlowle
    refine ⟨_, rfl, i2, ?_, ?_⟩
    · rcases i3 with i3 | i3
      · exact Or.inl i3
      · exact Or.inr (List.mem_cons_of_mem _ (List.mem_cons_of_mem _ i3))
    · intro sz hsz hszle
      rcases List.mem_cons.mp hsz with rfl | hsz
      · exact i1
      · rcases List.mem_cons.mp hsz with rfl | hsz
        · exact absurd hszle (not_le.mpr hhigt)
        · exact i4 sz hsz hszle
  · intro s target l b
    rcases (refineFold_spec s target l b).2 with h | ⟨h1, h2, _⟩
    · exact Or.inl h
    · exact Or.inr ⟨h1, h2⟩

/-- Concrete PDF encoder for the C1 witness: only the lowest tier fits. -/
def pencW : PdfLevel → Option ℚ :=
  fun l => some (if l.qf ≤ 0 then 30 else 200)

/-- Witness for C1 at a concrete PDF encoder and a concrete refinement
fold. -/
theorem claim_C1_witness :
    ((100 : ℚ) < 500 ∧ (30 : ℚ) ≤ 100 ∧ (100 : ℚ) < 200) ∧
    (∃ o : PdfOutcome,
      find_optimal_compression pencW 500 100 = some o ∧
      o.size ≤ 100 ∧ (o.size = 30 ∨ o.size ∈ o.probes) ∧
      ∀ sz ∈ o.probes, sz ≤ 100 → sz ≤ o.size) ∧
    (([2, 3] : List ℤ).foldl (refineStep (fun _ => 5) 10) (1, 4) = (1, 4) ∨
      ((([2, 3] : List ℤ).foldl (refineStep (fun _ => 5) 10) (1, 4)).2 ≤ 10 ∧
       (4 : ℕ) < (([2, 3] : List ℤ).foldl (refineStep (fun _ => 5) 10) (1, 4)).2)) :=
  ⟨⟨by decide, by decide, by decide⟩,
   claim_C1.1 pencW 500 100 30 200 (by decide) (by decide) (by decide)
     (by decide) (by decide),
   claim_C1.2 (fun _ => 5) 10 [2, 3] (1, 4)⟩

/-- C2: `binary_search_quality` first probes `max_quality` and returns
that probe immediately when it fits; otherwise it probes `min_quality`
and returns no result when even that probe exceeds the target
(image_compressor.py lines 98-106). -/
theorem claim_C2 (s : ℤ → ℕ) (target : ℕ) (minQ maxQ : ℤ) (tolPct : ℚ) :
    (s maxQ ≤ target →
      bsq s target minQ maxQ tolPct =
        ⟨some (maxQ, s maxQ), [⟨maxQ, s maxQ⟩], [], []⟩) ∧
    (target < s maxQ → target < s minQ →
      bsq s target minQ maxQ tolPct =
        ⟨none, [⟨maxQ, s maxQ⟩, ⟨minQ, s minQ⟩], [], []⟩) := by
  constructor
  · intro h
    simp only [bsq]
    rw [if_pos h]
  · intro h1 h2
    simp only [bsq]
    rw [if_neg (not_le.mpr h1), if_pos h2]

/-- Witness for C2: a constant encoder of size 5 fits at once; a constant
encoder of size 100 is infeasible for target 10. -/
theorem claim_C2_witness :
    ((fun _ => 5 : ℤ → ℕ) 95 ≤ 10 ∧
      bsq (fun _ => 5) 10 1 95 1 = ⟨some (95, 5), [⟨95, 5⟩], [], []⟩) ∧
    (10 < (fun _ => 100 : ℤ → ℕ) 95 ∧
      bsq (fun _ => 100) 10 1 95 1 =
        ⟨none, [⟨95, 100⟩, ⟨1, 100⟩], [], []⟩) :=
  ⟨⟨by decide, (claim_C2 (fun _ => 5) 10 1 95 1).1 (by decide)⟩,
   ⟨by decide, (claim_C2 (fun _ => 100) 10 1 95 1).2 (by decide) (by decide)⟩⟩

/-- C5: the claim that no parameter vector is ever probed twice within
one search fails: there is no probe cache in the code, and with an
encoder for which only the minimum quality fits, quality 1 is probed by
the boundary check (image_compressor.py line 104) and again by the loop,
and quality 2 is probed by the loop and again by the refinement pass. -/
theorem claim_C5_counterexample :
    ¬ (((bsq (fun q => if q ≤ 1 then 50 else 200) 100 1 95 1).probes.map
        Probe.q).Nodup) := by
  with_unfolding_all decide

/-- C5 (amended): within the binary-search loop proper the probed
quality values are pairwise distinct (the interval shrinks past the
midpoint on every step); repetitions occur only between the loop and the
boundary / refinement probes. -/
theorem claim_C5 (s : ℤ → ℕ) (target : ℕ) (minQ maxQ : ℤ) (tolPct : ℚ) :
    (((bsq s target minQ maxQ tolPct).loop).map Probe.q).Nodup := by
  simp only [bsq]
  split_ifs with h1 h2 h3
  · simp
  · simp
  · simp
  · exact bsqLoop_nodup s target _ 20 minQ maxQ (minQ, s minQ)

/-- C6: the quality binary search always terminates, with at most 20
loop probes (the `max_iterations` cap, image_compressor.py line 109), at
most 4 refinement probes (line 144), and at most 2 boundary probes. -/
theorem claim_C6 (s : ℤ → ℕ) (target : ℕ) (minQ maxQ : ℤ) (tolPct : ℚ) :
    (bsq s target minQ maxQ tolPct).loop.length ≤ 20 ∧
    (bsq s target minQ maxQ tolPct).refine.length ≤ 4 ∧
    (bsq s target minQ maxQ tolPct).boundary.length ≤ 2 := by
  simp only [bsq]
  split_ifs with h1 h2 h3
  · simp
  · simp
  · simp
  · refine ⟨bsqLoop_length s target _ 20 minQ maxQ (minQ, s minQ), ?_, by simp⟩
    show (List.map _ (refineList _ _)).length ≤ 4
    rw [List.length_map, refineList, List.length_map, List.length_range]
    omega

/-- C7: the claim fails on the `success` flag: the early-return
`compression_info` dict of `compress_image` (image_compressor.py lines
190-197) has NO `success` key (it is only set on the compression path,
line 302), so the outcome for an already-small source does not report
`success = true`. -/
theorem claim_C7_counterexample :
    (compressImage (fun _ _ _ => 0) ⟨500, 10, 10, "JPEG", "RGB"⟩ 1).success
      ≠ some true ∧
    (500 : ℕ) ≤ 1 * 1024 := by
  refine ⟨?_, by decide⟩
  with_unfolding_all decide

/-- C7 (amended): when the source size is at or under the target, both
compressors return the source unchanged with `reduction_percent = 0`
(and the achieved size trivially meets the target), but the image
early-return info omits the `success` flag rather than setting it to
true, and the PDF info never carries one. -/
theorem claim_C7 :
    (∀ (enc : String → ℤ → Option (ℕ × ℕ) → ℕ) (inp : ImageInput) (maxKB : ℕ),
      inp.originalSize ≤ maxKB * 1024 →
      compressImage enc inp maxKB =
        { returnedOriginal := true, ext := strLower inp.format,
          size := inp.originalSize, quality := 100,
          finalDims := (inp.width, inp.height), resized := false,
          reductionPercent := 0, success := none }) ∧
    (∀ (penc : PdfLevel → Option ℚ) (inputSize target : ℚ),
      inputSize ≤ target →
      find_optimal_compression penc inputSize target = some ⟨true, inputSize, []⟩ ∧
      pdf_reduction_percent inputSize inputSize = 0) := by
  constructor
  · intro enc inp maxKB h
    simp only [compressImage]
    rw [if_pos h]
  · intro penc inputSize target h
    constructor
    · simp only [find_optimal_compression]
      rw [if_pos h]
    · simp [pdf_reduction_percent]

/-- Witness for C7 at a concrete image input and a concrete PDF input. -/
theorem claim_C7_witness :
    ((500 : ℕ) ≤ 1 * 1024 ∧
      compressImage (fun _ _ _ => 0) ⟨500, 10, 10, "JPEG", "RGB"⟩ 1 =
        { returnedOriginal := true, ext := strLower "JPEG", size := 500,
          quality := 100, finalDims := (10, 10), resized := false,
          reductionPercent := 0, success := none }) ∧
    ((5 : ℚ) ≤ 10 ∧
      find_optimal_compression (fun _ => none) 5 10 = some ⟨true, 5, []⟩ ∧
      pdf_reduction_percent 5 5 = 0) :=
  ⟨⟨by decide, claim_C7.1 (fun _ _ _ => 0) ⟨500, 10, 10, "JPEG", "RGB"⟩ 1 (by decide)⟩,
   ⟨by decide, claim_C7.2 (fun _ => none) 5 10 (by decide)⟩⟩

/-- C3: when the quality search at the original dimensions and every
step of the dimension ladder fail, `compress_image` performs one last
probe at quality 1 and scale 0.1 and returns that artifact
unconditionally (image_compressor.py lines 264-280), reporting
`success = false` whenever that probe still exceeds the target (line
302); the embedded `compressImage` is total, so every decodable input
yields an artifact. -/
theorem claim_C3 (enc : String → ℤ → Option (ℕ × ℕ) → ℕ) (inp : ImageInput)
    (maxKB : ℕ)
    (h1 : maxKB * 1024 < inp.originalSize)
    (h2 : (bsq (fun q => enc (imageFmt inp (maxKB * 1024)) q none)
      (maxKB * 1024) 1 95 1).best = none)
    (h3 : ladderSearch (enc (imageFmt inp (maxKB * 1024))) (maxKB * 1024)
      inp.width inp.height scaleFactors = none) :
    compressImage enc inp maxKB =
      { returnedOriginal := false,
        ext := strLower (imageFmt inp (maxKB * 1024)),
        size := enc (imageFmt inp (maxKB * 1024)) 1
          (some (calculate_new_dimensions inp.width inp.height (mkRat 1 10))),
        quality := 1,
        finalDims := calculate_new_dimensions inp.width inp.height (mkRat 1 10),
        resized := true,
        reductionPercent := (1 - ((enc (imageFmt inp (maxKB * 1024)) 1
          (some (calculate_new_dimensions inp.width inp.height (mkRat 1 10))) : ℚ)) /
          (inp.originalSize : ℚ)) * 100,
        success := some (decide (enc (imageFmt inp (maxKB * 1024)) 1
          (some (calculate_new_dimensions inp.width inp.height (mkRat 1 10))) ≤
          maxKB * 1024)) } ∧
    (maxKB * 1024 < enc (imageFmt inp (maxKB * 1024)) 1
        (some (calculate_new_dimensions inp.width inp.height (mkRat 1 10))) →
      (compressImage enc inp maxKB).success = some false) := by
  constructor
  · simp only [compressImage]
    rw [if_neg (by omega), h2, h3]
  · intro hover
    simp only [compressImage]
    rw [if_neg (by omega), h2, h3]
    simp [Nat.not_le.mpr hover]

/-- Concrete always-huge encoder for the C3 witness. -/
def encW : String → ℤ → Option (ℕ × ℕ) → ℕ := fun _ _ _ => 2000000

/-- Concrete image input for the C3 witness. -/
def inpW : ImageInput := ⟨1500000, 100, 80, "JPEG", "RGB"⟩

/-- Witness for C3: with an encoder that always produces 2000000 bytes
against a 1 KB target, every search fails and the floor probe is
returned with `success = false`. -/
theorem claim_C3_witness :
    1 * 1024 < 1500000 ∧ (compressImage encW inpW 1).success = some false :=
  ⟨by decide,
   (claim_C3 encW inpW 1 (by decide) (by with_unfolding_all decide)
     (by with_unfolding_all decide)).2 (by with_unfolding_all decide)⟩

/-- C10: a PNG source in RGBA mode whose target is below half its size
is re-encoded as WebP (image_compressor.py lines 199-203), and the
returned filename's extension is the lowercased compression format
(lines 287-289), so both differ from the source's PNG. -/
theorem claim_C10 (enc : String → ℤ → Option (ℕ × ℕ) → ℕ) (inp : ImageInput)
    (maxKB : ℕ)
    (hf : inp.format = "PNG") (hm : inp.mode = "RGBA")
    (h1 : maxKB * 1024 < inp.originalSize)
    (h2 : ((maxKB * 1024 : ℕ) : ℚ) < (inp.originalSize : ℚ) * mkRat 1 2) :
    (compressImage enc inp maxKB).ext = "webp" ∧
    (compressImage enc inp maxKB).ext ≠ strLower inp.format ∧
    imageFmt inp (maxKB * 1024) = "WEBP" := by
  have hfmt : imageFmt inp (maxKB * 1024) = "WEBP" := by
    rw [imageFmt, if_pos]
    exact ⟨by rw [hf]; decide, hm, h2⟩
  have hext : (compressImage enc inp maxKB).ext = "webp" := by
    simp only [compressImage]
    rw [if_neg (by omega), hfmt]
    cases hb : (bsq (fun q => enc "WEBP" q none) (maxKB * 1024) 1 95 1).best with
    | some p =>
      cases p with
      | mk q sz => exact (by decide : strLower "WEBP" = "webp")
    | none =>
      cases hl : ladderSearch (enc "WEBP") (maxKB * 1024) inp.width inp.height
          scaleFactors with
      | some t =>
        rcases t with ⟨sz, q, d⟩
        exact (by decide : strLower "WEBP" = "webp")
      | none => exact (by decide : strLower "WEBP" = "webp")
  refine ⟨hext, ?_, hfmt⟩
  rw [hext, hf]
  decide

/-- Witness for C10 at a concrete RGBA PNG input. -/
theorem claim_C10_witness :
    ((1 * 1024 : ℕ) : ℚ) < (10000 : ℚ) * mkRat 1 2 ∧
    (compressImage (fun _ _ _ => 500) ⟨10000, 10, 10, "PNG", "RGBA"⟩ 1).ext = "webp" :=
  ⟨by with_unfolding_all decide,
   (claim_C10 (fun _ _ _ => 500) ⟨10000, 10, 10, "PNG", "RGBA"⟩ 1 rfl rfl
     (by decide) (by with_unfolding_all decide)).1⟩

/-- Helper: `List.find?` returns the first element satisfying the predicate:
the list splits at the returned element and everything before it fails
the predicate. -/
theorem find?_first {α : Type} (p : α → Bool) :
    ∀ (l : List α) (a : α), l.find? p = some a →
      ∃ l1 l2, l = l1 ++ a :: l2 ∧ (∀ b ∈ l1, p b = false) ∧ p a = true := by
  intro l
  induction l with
  | nil =>
    intro a h
    simp [List.find?] at h
  | cons x xs ih =>
    intro a h
    by_cases hx : p x
    · rw [List.find?_cons_of_pos _ hx] at h
      obtain rfl := Option.some_injective _ h
      exact ⟨[], xs, rfl, by simp, hx⟩
    · rw [List.find?_cons_of_neg _ hx] at h
      obtain ⟨l1, l2, rfl, hl1, hpa⟩ := ih a h
      refine ⟨x :: l1, l2, rfl, ?_, hpa⟩
      intro b hb
      rcases List.mem_cons.mp hb with rfl | hb
      · simpa using hx
      · exact hl1 b hb

/-- C8: for a factor in [0,1] the PDF tier lookup returns the first
level of the ascending 11-entry table whose quality factor is at least
the requested factor (pdf_compressor.py lines 127-134), and for a
factor beyond the table's range it returns the highest level. -/
theorem claim_C8 (f : ℚ) :
    (0 ≤ f → f ≤ 1 →
      ∃ l1 l2, CUSTOM_QUALITY_LEVELS =
          l1 ++ get_settings_for_quality_factor f :: l2 ∧
        (∀ lv ∈ l1, lv.qf < f) ∧
        f ≤ (get_settings_for_quality_factor f).qf) ∧
    (1 < f → get_settings_for_quality_factor f = ⟨1, "/prepress", 400⟩) := by
  constructor
  · intro _ h1
    have hsome : (CUSTOM_QUALITY_LEVELS.find?
        (fun l => decide (f ≤ l.qf))).isSome = true := by
      rw [List.find?_isSome]
      refine ⟨⟨1, "/prepress", 400⟩, ?_, by simpa using h1⟩
      simp [CUSTOM_QUALITY_LEVELS]
    obtain ⟨a, ha⟩ := Option.isSome_iff_exists.mp hsome
    have hget : get_settings_for_quality_factor f = a := by
      rw [get_settings_for_quality_factor, ha, Option.getD_some]
    obtain ⟨l1, l2, heq, hfalse, htrue⟩ := find?_first _ _ a ha
    refine ⟨l1, l2, by rw [hget]; exact heq, ?_, ?_⟩
    · intro lv hlv
      have := hfalse lv hlv
      simpa [not_le] using this
    · rw [hget]
      simpa using htrue
  · intro h1
    have hnone : CUSTOM_QUALITY_LEVELS.find?
        (fun l => decide (f ≤ l.qf)) = none := by
      rw [List.find?_eq_none]
      intro x hx
      fin_cases hx <;>
        simp only [decide_eq_true_eq, not_le] <;>
        [skip; rw [Rat.mkRat_eq_div]; rw [Rat.mkRat_eq_div];
         rw [Rat.mkRat_eq_div]; rw [Rat.mkRat_eq_div]; rw [Rat.mkRat_eq_div];
         rw [Rat.mkRat_eq_div]; rw [Rat.mkRat_eq_div]; rw [Rat.mkRat_eq_div];
         rw [Rat.mkRat_eq_div]; skip] <;>
        norm_num <;> linarith
    rw [get_settings_for_quality_factor, hnone]
    decide

/-- Witness for C8 at the in-range factor 1 and the out-of-range
factor 2. -/
theorem claim_C8_witness :
    ((0 : ℚ) ≤ 1 ∧
      ∃ l1 l2, CUSTOM_QUALITY_LEVELS =
          l1 ++ get_settings_for_quality_factor 1 :: l2 ∧
        (∀ lv ∈ l1, lv.qf < 1) ∧
        (1 : ℚ) ≤ (get_settings_for_quality_factor 1).qf) ∧
    ((1 : ℚ) < 2 ∧
      get_settings_for_quality_factor 2 = ⟨1, "/prepress", 400⟩) :=
  ⟨⟨by decide, (claim_C8 1).1 (by decide) (by decide)⟩,
   ⟨by decide, (claim_C8 2).2 (by decide)⟩⟩

/-! ### Lemmas about the video bitrate loop -/

/-- Every probe of the bitrate-adjustment loop is taken at the original
resolution `(w, h)` (video_compressor.py lines 188-189 pass `width,
height`, not the downscaled dimensions). -/
theorem vLoop_probe_dims (venc : ℚ → Option (ℕ × ℕ) → ℕ) (minB maxB : ℚ)
    (w h : ℕ) :
    ∀ (fuel : ℕ) (vb : ℚ) (size : ℕ) (p : VProbe),
      p ∈ (vLoop venc minB maxB w h fuel vb size).2.2.1 →
      p.dims = some (w, h) := by
  intro fuel
  induction fuel with
  | zero =>
    intro vb size p hp
    simp [vLoop] at hp
  | succ n ih =>
    intro vb size p hp
    simp only [vLoop] at hp
    split_ifs at hp with hband hcase
    · simp at hp
    · rcases List.mem_cons.mp hp with rfl | hmem
      · rfl
      · exact ih _ _ p hmem
    · rcases List.mem_cons.mp hp with rfl | hmem
      · rfl
      · exact ih _ _ p hmem

/-- Every probe of the bitrate-adjustment loop uses a clamped bitrate. -/
theorem vLoop_probe_bitrate (venc : ℚ → Option (ℕ × ℕ) → ℕ) (minB maxB : ℚ)
    (w h : ℕ) :
    ∀ (fuel : ℕ) (vb : ℚ) (size : ℕ) (p : VProbe),
      p ∈ (vLoop venc minB maxB w h fuel vb size).2.2.1 →
      ∃ b, p.bitrate = clampBitrate b := by
  intro fuel
  induction fuel with
  | zero =>
    intro vb size p hp
    simp [vLoop] at hp
  | succ n ih =>
    intro vb size p hp
    simp only [vLoop] at hp
    split_ifs at hp with hband hcase
    · simp at hp
    · rcases List.mem_cons.mp hp with rfl | hmem
      · exact ⟨_, rfl⟩
      · exact ih _ _ p hmem
    · rcases List.mem_cons.mp hp with rfl | hmem
      · exact ⟨_, rfl⟩
      · exact ih _ _ p hmem

/-- The bitrate-adjustment loop exits only with a size inside the band
or with its fuel (the 4-attempt cap) exhausted. -/
theorem vLoop_band (venc : ℚ → Option (ℕ × ℕ) → ℕ) (minB maxB : ℚ)
    (w h : ℕ) :
    ∀ (fuel : ℕ) (vb : ℚ) (size : ℕ),
      (minB ≤ ((vLoop venc minB maxB w h fuel vb size).2.1 : ℚ) ∧
        ((vLoop venc minB maxB w h fuel vb size).2.1 : ℚ) ≤ maxB) ∨
      (vLoop venc minB maxB w h fuel vb size).2.2.2 = fuel := by
  intro fuel
  induction fuel with
  | zero =>
    intro vb size
    exact Or.inr rfl
  | succ n ih =>
    intro vb size
    simp only [vLoop]
    split_ifs with hband hcase
    · exact Or.inl hband
    · rcases ih (clampBitrate (vb * mkRat 9 10))
        (venc (clampBitrate (vb * mkRat 9 10)) (some (w, h))) with hb | hn
      · exact Or.inl hb
      · exact Or.inr (by rw [hn])
    · rcases ih (clampBitrate (vb * mkRat 11 10))
        (venc (clampBitrate (vb * mkRat 11 10)) (some (w, h))) with hb | hn
      · exact Or.inl hb
      · exact Or.inr (by rw [hn])

/-- The clamp keeps every bitrate inside `[100000, 4000000]`. -/
theorem clampBitrate_bounds (b : ℚ) :
    100000 ≤ clampBitrate b ∧ clampBitrate b ≤ 4000000 :=
  ⟨le_max_left _ _, max_le (by norm_num) (min_le_right _ _)⟩

/-- C4: the claim fails: after the one-shot 80% downscale, every
bitrate iteration re-probes at the ORIGINAL `width, height`
(video_compressor.py lines 188-189), not at the downscaled resolution.
With an encoder that always produces 10000000 bytes against a 5 MB
request on a 100×50 source, the downscale to 80×40 occurs (probe 1) but
probes 2-5 (the loop) and 6 (the safety pass) are at 100×50. -/
theorem claim_C4_counterexample :
    ((compress_video_to_target (fun _ _ => 10000000) 10 100 50 5).probes.map
        VProbe.dims) =
      [none, some (80, 40), some (100, 50), some (100, 50), some (100, 50),
       some (100, 50), some (100, 50)] ∧
    some ((100 : ℕ), (50 : ℕ)) ≠ some ((80 : ℕ), (40 : ℕ)) := by
  refine ⟨?_, by decide⟩
  with_unfolding_all decide

/-- C4 (amended): if the initial probe exceeds the band's upper bound,
probes 0 and 1 are at the same (initial) bitrate, probe 1 at the
one-shot 80%-downscaled resolution, before any bitrate adjustment; every
later probe — the bitrate iterations and the safety pass — is taken at
the original resolution, the downscale not being retained. -/
theorem claim_C4 (venc : ℚ → Option (ℕ × ℕ) → ℕ) (duration : ℚ)
    (w h : ℕ) (m : ℚ)
    (hbig : vMaxBytes m < ((venc (initialBitrate duration m) none : ℕ) : ℚ)) :
    (compress_video_to_target venc duration w h m).probes.take 2 =
      [⟨initialBitrate duration m, none⟩,
       ⟨initialBitrate duration m, some (downDims w h)⟩] ∧
    (∀ p ∈ (compress_video_to_target venc duration w h m).probes.drop 2,
      p.dims = some (w, h)) := by
  simp only [compress_video_to_target]
  rw [if_pos hbig]
  constructor
  · simp
  · intro p hp
    simp only [List.cons_append, List.nil_append, List.drop_succ_cons,
      List.drop_zero] at hp
    rcases List.mem_append.mp hp with hmem | hmem
    · exact vLoop_probe_dims venc _ _ w h 4 _ _ p hmem
    · revert hmem
      split_ifs with hc
      · intro hmem
        rcases List.mem_cons.mp hmem with rfl | hmem
        · rfl
        · simp at hmem
      · intro hmem
        simp at hmem

/-- Witness for C4 at the concrete oversized encoder. -/
theorem claim_C4_witness :
    vMaxBytes 5 <
      (((fun _ _ => 10000000 : ℚ → Option (ℕ × ℕ) → ℕ)
        (initialBitrate 10 5) none : ℕ) : ℚ) ∧
    (compress_video_to_target (fun _ _ => 10000000) 10 100 50 5).probes.take 2 =
      [⟨initialBitrate 10 5, none⟩,
       ⟨initialBitrate 10 5, some (downDims 100 50)⟩] :=
  ⟨by with_unfolding_all decide,
   (claim_C4 (fun _ _ => 10000000) 10 100 50 5
     (by with_unfolding_all decide)).1⟩

/-- C9: every probe of the video compressor — the initial estimate, the
downscale re-probe, the loop iterations and the safety pass — runs at a
bitrate clamped into [100000, 4000000] (video_compressor.py lines
152-154, 185-186, 198), and the adjustment loop exits only with a size
inside `[min_bytes, max_bytes]` or after its 4-attempt cap. -/
theorem claim_C9 (venc : ℚ → Option (ℕ × ℕ) → ℕ) (duration : ℚ)
    (w h : ℕ) (m : ℚ) (_hd : 0 < duration) :
    (∀ p ∈ (compress_video_to_target venc duration w h m).probes,
      100000 ≤ p.bitrate ∧ p.bitrate ≤ 4000000) ∧
    ((vMinBytes m ≤ ((compress_video_to_target venc duration w h m).loopSize : ℚ) ∧
      ((compress_video_to_target venc duration w h m).loopSize : ℚ) ≤ vMaxBytes m) ∨
      (compress_video_to_target venc duration w h m).loopIters = 4) := by
  constructor
  · intro p hp
    simp only [compress_video_to_target] at hp
    rcases List.mem_append.mp hp with hp | hp
    · rcases List.mem_append.mp hp with hp | hp
      · revert hp
        split_ifs with hc <;> intro hp <;>
          simp only [List.mem_cons, List.mem_singleton, List.not_mem_nil,
            or_false] at hp
        · rcases hp with rfl | rfl <;> exact clampBitrate_bounds _
        · obtain rfl := hp
          exact clampBitrate_bounds _
      · obtain ⟨b, hb⟩ := vLoop_probe_bitrate venc _ _ w h 4 _ _ p hp
        rw [hb]
        exact clampBitrate_bounds b
    · revert hp
      split_ifs with h1 h2 h3 <;> intro hp <;>
        simp only [List.mem_cons, List.mem_singleton, List.not_mem_nil,
          or_false] at hp
      all_goals obtain rfl := hp
      all_goals exact clampBitrate_bounds _
  · exact vLoop_band venc (vMinBytes m) (vMaxBytes m) w h 4 _ _

/-- Witness for C9 at a concrete run: the adjustment loop of the
concrete run ends in band or with the 4-attempt cap exhausted. -/
theorem claim_C9_witness :
    (0 : ℚ) < 10 ∧
    ((vMinBytes 5 ≤
        ((compress_video_to_target (fun _ _ => 10000000) 10 100 50 5).loopSize : ℚ) ∧
      ((compress_video_to_target (fun _ _ => 10000000) 10 100 50 5).loopSize : ℚ) ≤
        vMaxBytes 5) ∨
     (compress_video_to_target (fun _ _ => 10000000) 10 100 50 5).loopIters = 4) :=
  ⟨by decide, (claim_C9 (fun _ _ => 10000000) 10 100 50 5 (by decide)).2⟩

end FileCompressor
